import Mathlib

/-!
Shallow embedding of `tools/parse-reports.py`: a script that scrapes JUnit
and Checkstyle XML reports and re-emits their findings as GitHub annotation
lines, resolving stack-trace locations against a fixed multi-project layout.

Strings are modelled as Lean `String`s (lists of characters); the regular
expressions of the script are small and deterministic (no real backtracking,
as argued at each definition), so each is embedded as an executable scanner
over `List Char`.  The filesystem probe `os.path.exists` is a parameter
`fs : String → Bool`; the set of files a `glob` sees is a parameter
`List (List String)` of existing paths given by components.  Fallible code
(Python exceptions: `KeyError` on a missing XML attribute, `TypeError` when
`re` functions receive `None`) is modelled with `Except String`.
-/

namespace ParseReports

/-! ## Character classes of the script's regular expressions (ASCII part of
Python's `\s`, `\w`, `\d`; the inputs of interest are ASCII) -/

def isWS (c : Char) : Bool :=
  c == ' ' || c == '\t' || c == '\n' || c == '\r' || c == '\x0b' || c == '\x0c'

def isWordChar (c : Char) : Bool :=
  c.isAlphanum || c == '_'

/-- Character class `[-\w./]` of LUA_ERROR_LOCATION / JAVA_LUA_ERROR_LOCATION. -/
def isPathChar (c : Char) : Bool :=
  isWordChar c || c == '.' || c == '/' || c == '-'

/-- Character class `[\w.]` of JAVA_ERROR_LOCATION. -/
def isClassChar (c : Char) : Bool :=
  isWordChar c || c == '.'

/-! ## The fixed configuration lists of the script -/

def SOURCE_LOCATIONS : List String :=
  ["src/main/java",
   "src/main/resources/data/computercraft/lua",
   "src/test/java",
   "src/test/resources"]

def PROJECT_LOCATIONS : List String :=
  ["projects/core-api",
   "projects/core",
   "projects/common-api",
   "projects/common",
   "projects/forge-api",
   "projects/forge"]

/-! ## SourceLocator: `find_file` -/

/-- Inner loop of `find_file`: try each source root under one project. -/
def findSrc (fs : String → Bool) (project p : String) : List String → Option String
  | [] => none
  | src :: rest =>
    let child := project ++ "/" ++ src ++ "/" ++ p
    if fs child then some child else findSrc fs project p rest

/-- Outer loop of `find_file`: try each project root. -/
def findProj (fs : String → Bool) (p : String) : List String → Option String
  | [] => none
  | proj :: rest =>
    match findSrc fs proj p SOURCE_LOCATIONS with
    | some f => some f
    | none => findProj fs p rest

/-- Embedding of `find_file`: strip leading `/`, then probe every
project root × source root combination in declared order. -/
def find_file (fs : String → Bool) (path : String) : Option String :=
  findProj fs (String.mk (path.data.dropWhile (fun c => c == '/'))) PROJECT_LOCATIONS

/-- Declarative list of the combination paths `find_file` probes, in the
declared project-then-source order, for an already stripped path `p`. -/
def combosSrc (proj p : String) : List String :=
  SOURCE_LOCATIONS.map (fun src => proj ++ "/" ++ src ++ "/" ++ p)

def combosAux (p : String) : List String → List String
  | [] => []
  | proj :: rest => combosSrc proj p ++ combosAux p rest

def combos (p : String) : List String :=
  combosAux p PROJECT_LOCATIONS

/-! ## The three location regular expressions

`LUA_ERROR_LOCATION = ^\s+(/[-\w./]+):(\d+):` (MULTILINE),
`JAVA_LUA_ERROR_LOCATION = ^java.lang.IllegalStateException: (/[-\w./]+):(\d+):`,
`JAVA_ERROR_LOCATION = ^\tat ([\w.]+)\.[\w]+\([\w.]+:(\d+)\)$` (MULTILINE).

In each pattern every repeated class is followed by a character outside the
class, so Python's greedy matching is maximal-munch with no backtracking
(for `([\w.]+)\.[\w]+\(` the only viable split of the maximal `[\w.]` run is
at its last dot).  A `search` is the leftmost position, subject to `^`,
where the whole pattern matches. -/

/-- Match `(/[-\w./]+):(\d+):` at the head of `s`, returning the captured
path (with its leading slash) and line-number digits. -/
def pathNumCapture : List Char → Option (List Char × List Char)
  | '/' :: r1 =>
    let body := r1.takeWhile isPathChar
    let r2 := r1.dropWhile isPathChar
    if body.isEmpty then none else
    match r2 with
    | ':' :: r3 =>
      let ds := r3.takeWhile Char.isDigit
      let r4 := r3.dropWhile Char.isDigit
      if ds.isEmpty then none else
      match r4 with
      | ':' :: _ => some ('/' :: body, ds)
      | _ => none
    | _ => none
  | _ => none

/-- Match LUA_ERROR_LOCATION at one position (which the caller has checked
to be a line start): `\s+` then a path capture. -/
def luaMatchAt (s : List Char) : Option (List Char × List Char) :=
  let ws := s.takeWhile isWS
  if ws.isEmpty then none else pathNumCapture (s.dropWhile isWS)

def luaSearchAux : List Char → Bool → Option (List Char × List Char)
  | [], _ => none
  | c :: rest, atStart =>
    match (if atStart then luaMatchAt (c :: rest) else none) with
    | some r => some r
    | none => luaSearchAux rest (c == '\n')

/-- Embedding of `LUA_ERROR_LOCATION.search`. -/
def luaSearch (s : List Char) : Option (List Char × List Char) :=
  luaSearchAux s true

/-- The literal head of JAVA_LUA_ERROR_LOCATION; its dots are regex
wildcards, handled by `matchWild`. -/
def javaLuaPat : List Char := "java.lang.IllegalStateException: ".data

/-- Match a literal pattern whose `.` characters match any character other
than a newline (the pattern is compiled without DOTALL); returns the
remainder of the subject on success. -/
def matchWild : List Char → List Char → Option (List Char)
  | [], s => some s
  | _ :: _, [] => none
  | p :: ps, c :: cs =>
    if p == c || (p == '.' && !(c == '\n')) then matchWild ps cs else none

/-- Embedding of `JAVA_LUA_ERROR_LOCATION.search`: the pattern is anchored
with `^` and compiled without MULTILINE, so only position 0 can match. -/
def javaLuaSearch (s : List Char) : Option (List Char × List Char) :=
  match matchWild javaLuaPat s with
  | none => none
  | some r => pathNumCapture r

/-- Split a `[\w.]` run at its last dot, both sides nonempty: the unique
way `([\w.]+)\.[\w]+` can consume the run. -/
def splitLastDot (l : List Char) : Option (List Char × List Char) :=
  let r := l.reverse
  let rt := r.takeWhile (fun c => c != '.')
  let rr := r.dropWhile (fun c => c != '.')
  match rr with
  | '.' :: rg => if rt.isEmpty || rg.isEmpty then none else some (rg.reverse, rt.reverse)
  | _ => none

/-- Does the position just after a match satisfy `$` (MULTILINE)? -/
def atLineEnd : List Char → Bool
  | [] => true
  | c :: _ => c == '\n'

/-- Match JAVA_ERROR_LOCATION at one position (a line start), returning the
two captures (qualified class name, line digits) and the remainder after
the match. -/
def javaMatchAt (s : List Char) : Option ((List Char × List Char) × List Char) :=
  match s with
  | '\t' :: 'a' :: 't' :: ' ' :: r1 =>
    let run := r1.takeWhile isClassChar
    let r2 := r1.dropWhile isClassChar
    match splitLastDot run with
    | none => none
    | some gt =>
      match r2 with
      | '(' :: r3 =>
        let frun := r3.takeWhile isClassChar
        let r4 := r3.dropWhile isClassChar
        if frun.isEmpty then none else
        match r4 with
        | ':' :: r5 =>
          let ds := r5.takeWhile Char.isDigit
          let r6 := r5.dropWhile Char.isDigit
          if ds.isEmpty then none else
          match r6 with
          | ')' :: r7 => if atLineEnd r7 then some ((gt.1, ds), r7) else none
          | _ => none
        | _ => none
      | _ => none
  | _ => none

/-- Embedding of `JAVA_ERROR_LOCATION.findall`: all non-overlapping matches
in position order; after a match, scanning resumes at the match end.  The
fuel argument bounds the recursion (each step consumes at least one
character). -/
def javaFindallAux : Nat → List Char → Bool → List (List Char × List Char)
  | 0, _, _ => []
  | _ + 1, [], _ => []
  | fuel + 1, c :: rest, atStart =>
    match (if atStart then javaMatchAt (c :: rest) else none) with
    | some gr => gr.1 :: javaFindallAux fuel gr.2 false
    | none => javaFindallAux fuel rest (c == '\n')

def javaFindall (s : List Char) : List (List Char × List Char) :=
  javaFindallAux (s.length + 1) s true

/-! ## LocationExtractor: `find_location` -/

/-- One `if location: file = find_file(...); if file: return file, line`
step of `find_location`. -/
def resolveCapture (fs : String → Bool) : Option (List Char × List Char) → Option (String × String)
  | none => none
  | some pl =>
    match find_file fs (String.mk pl.1) with
    | none => none
    | some f => some (f, String.mk pl.2)

def dotToSlash (c : Char) : Char := if c == '.' then '/' else c

/-- The `for location in JAVA_ERROR_LOCATION.findall(message)` loop:
`find_file(location[0].replace(".", "/") + ".java")`, first hit wins. -/
def firstResolvableFrame (fs : String → Bool) : List (List Char × List Char) → Option (String × String)
  | [] => none
  | g :: rest =>
    match find_file fs (String.mk (g.1.map dotToSlash) ++ ".java") with
    | some f => some (f, String.mk g.2)
    | none => firstResolvableFrame fs rest

/-- Embedding of `find_location`. -/
def find_location (fs : String → Bool) (message : String) : Option (String × String) :=
  match resolveCapture fs (luaSearch message.data) with
  | some fl => some fl
  | none =>
    match resolveCapture fs (javaLuaSearch message.data) with
    | some fl => some fl
    | none => firstResolvableFrame fs (javaFindall message.data)

/-! ## Summary extraction

`ERROR_MESSAGE = (.*)\nstack traceback:` with DOTALL, applied with `.match`
(anchored at position 0) to the failure's `message` attribute.  The match
succeeds exactly when the marker `\nstack traceback:` occurs somewhere, and
the greedy `(.*)` makes group 1 the text before the last occurrence. -/

def markerL : List Char := "\nstack traceback:".data

/-- Greedy group 1 of `ERROR_MESSAGE.match`: prefer consuming the current
character into the capture (a later marker) over matching the marker here. -/
def errMatchAux : List Char → Option (List Char)
  | [] => none
  | c :: rest =>
    match errMatchAux rest with
    | some g => some (c :: g)
    | none => if markerL.isPrefixOf (c :: rest) then some [] else none

/-- The `error = ERROR_MESSAGE.match(message); error[1] if error else message`
computation of `_parse_junit_file`. -/
def errorSummary (m : String) : String :=
  match errMatchAux m.data with
  | some g => String.mk g
  | none => m

/-- Executable substring test, used to state properties of `errorSummary`. -/
def containsSub (pat : List Char) : List Char → Bool
  | [] => pat.isPrefixOf ([] : List Char)
  | c :: rest => pat.isPrefixOf (c :: rest) || containsSub pat rest

/-- Embedding of `SPACES.sub(" ", ·)` with `SPACES = \s+`: collapse every
whitespace run to a single space. -/
def collapseAux : Bool → List Char → List Char
  | _, [] => []
  | prevWS, c :: rest =>
    if isWS c then
      (if prevWS then collapseAux true rest else ' ' :: collapseAux true rest)
    else c :: collapseAux false rest

def collapse (s : String) : String :=
  String.mk (collapseAux false s.data)

/-! ## XML elements and the JUnit scanner -/

/-- An XML element as `xml.etree.ElementTree` presents it: tag, attribute
map, text, and child elements. -/
structure Element where
  tag : String
  attrib : List (String × String)
  text : Option String
  children : List Element

def keyErr (k : String) : String := "KeyError: " ++ k

/-- Python's error when `re` functions receive `None` instead of a string. -/
def typeErr : String := "TypeError: expected string or bytes-like object"

/-- The body of `_parse_junit_file` for one `failure` child `r` of a
`testcase` element `tc`: the lines printed for it, or the exception raised.
Following the source's evaluation order, a missing `classname`/`name`
attribute raises `KeyError`; a `None` failure body raises `TypeError`
inside `find_location`; a `None` `message` attribute raises `TypeError`
inside `ERROR_MESSAGE.match`. -/
def processFailure (fs : String → Bool) (tc r : Element) : Except String (List String) :=
  match tc.attrib.lookup "classname" with
  | none => Except.error (keyErr "classname")
  | some cn =>
    match tc.attrib.lookup "name" with
    | none => Except.error (keyErr "name")
    | some nm =>
      match r.text with
      | none => Except.error typeErr
      | some t =>
        match r.attrib.lookup "message" with
        | none => Except.error typeErr
        | some m =>
          let name := cn ++ "." ++ nm
          let headline :=
            match find_location fs t with
            | some fl =>
              "## " ++ fl.1 ++ ":" ++ fl.2 ++ ": " ++ name ++ " failed: " ++
                collapse (errorSummary m)
            | none => "::error::" ++ name ++ " failed"
          Except.ok [headline, "::group::Full error message", t, "::endgroup"]

/-- The `for result in testcase` loop: children whose tag is not `failure`
are skipped. -/
def processResults (fs : String → Bool) (tc : Element) : List Element → Except String (List String)
  | [] => Except.ok []
  | r :: rest =>
    if r.tag == "failure" then
      match processFailure fs tc r with
      | Except.error e => Except.error e
      | Except.ok out =>
        match processResults fs tc rest with
        | Except.error e => Except.error e
        | Except.ok outs => Except.ok (out ++ outs)
    else processResults fs tc rest

/-- The `for testcase in root` loop: children whose tag is not `testcase`
are skipped. -/
def processTestcases (fs : String → Bool) : List Element → Except String (List String)
  | [] => Except.ok []
  | tc :: rest =>
    if tc.tag == "testcase" then
      match processResults fs tc tc.children with
      | Except.error e => Except.error e
      | Except.ok out =>
        match processTestcases fs rest with
        | Except.error e => Except.error e
        | Except.ok outs => Except.ok (out ++ outs)
    else processTestcases fs rest

/-- Embedding of `_parse_junit_file` on an already parsed XML root. -/
def parse_junit_file (fs : String → Bool) (root : Element) : Except String (List String) :=
  processTestcases fs root.children

/-! ## JUnit report discovery

`pathlib.Path(os.path.join(project, "build/test-results/test")).glob("TEST-*.xml")`
for each project root.  The filesystem is a list of existing file paths
given by components; `glob` with a pattern containing no `/` and no `**`
yields only direct children of the directory whose final component matches
the pattern. -/

/-- Split a string into `/`-separated components. -/
def splitSlashAux (acc : List Char) : List Char → List (List Char)
  | [] => [acc.reverse]
  | c :: rest => if c == '/' then acc.reverse :: splitSlashAux [] rest else splitSlashAux (c :: acc) rest

def splitPath (s : String) : List String :=
  (splitSlashAux [] s.data).filterMap
    (fun comp => if comp.isEmpty || comp == ['.'] then none else some (String.mk comp))

/-- Does a file name match the glob pattern `TEST-*.xml`? -/
def fnTestXml (n : String) : Bool :=
  "TEST-".data.isPrefixOf n.data && ".xml".data.isSuffixOf n.data && decide (9 ≤ n.data.length)

/-- The directory `os.path.join(project, "build/test-results/test")`, as
components. -/
def projectDir (proj : String) : List String :=
  splitPath proj ++ ["build", "test-results", "test"]

def lastTestXml (p : List String) : Bool :=
  match p.getLast? with
  | some n => fnTestXml n
  | none => false

/-- Embedding of the non-recursive `glob("TEST-*.xml")` in directory `dir`. -/
def globTestXml (fs : List (List String)) (dir : List String) : List (List String) :=
  fs.filter (fun p => (p.dropLast == dir) && lastTestXml p)

def junitDiscoveredAux (fs : List (List String)) : List String → List (List String)
  | [] => []
  | proj :: rest => globTestXml fs (projectDir proj) ++ junitDiscoveredAux fs rest

/-- All JUnit report files `parse_junit` discovers over the project roots. -/
def junitDiscovered (fs : List (List String)) : List (List String) :=
  junitDiscoveredAux fs PROJECT_LOCATIONS

/-- A path is discovered exactly when its parent directory is the fixed
build-output directory of some project root and its name matches the glob. -/
def junitDirect (p : List String) : Bool :=
  (PROJECT_LOCATIONS.any (fun proj => p.dropLast == projectDir proj)) && lastTestXml p

/-! ## Checkstyle scanner -/

/-- Relative-path components: `os.path.normpath` on components (with `.`
and empty components already removed by `splitPath`). -/
def normParts (l : List String) : List String :=
  l.foldl (fun acc c => if c == ".." then acc.dropLast else acc.concat c) []

def isAbs (s : String) : Bool :=
  match s.data with
  | c :: _ => c == '/'
  | [] => false

/-- Absolute components of `s` against the working directory `cwd` (itself
given as normalized absolute components). -/
def absParts (cwd : List String) (s : String) : List String :=
  if isAbs s then normParts (splitPath s) else normParts (cwd ++ splitPath s)

def commonPrefixLen : List String → List String → Nat
  | a :: as, b :: bs => if a == b then commonPrefixLen as bs + 1 else 0
  | _, _ => 0

def joinSlash : List String → String
  | [] => ""
  | [x] => x
  | x :: y :: rest => x ++ "/" ++ joinSlash (y :: rest)

/-- Embedding of `os.path.relpath(s)` with working directory `cwd`. -/
def relpath (cwd : List String) (s : String) : String :=
  let p := absParts cwd s
  let n := commonPrefixLen cwd p
  let parts := List.replicate (cwd.length - n) ".." ++ p.drop n
  if parts.isEmpty then "." else joinSlash parts

/-- The body of `_parse_checkstyle` for one `error` child `e` of a `file`
element: the annotation line printed, or the `KeyError` raised.  The
`column` attribute defaults to `1` via `attrib.get("column", 1)`. -/
def checkstyleErrorLine (cwd : List String) (file e : Element) : Except String String :=
  match file.attrib.lookup "name" with
  | none => Except.error (keyErr "name")
  | some nm =>
    let filename := relpath cwd nm
    match e.attrib.lookup "severity" with
    | none => Except.error (keyErr "severity")
    | some sev =>
      match e.attrib.lookup "line" with
      | none => Except.error (keyErr "line")
      | some ln =>
        let col := (e.attrib.lookup "column").getD "1"
        match e.attrib.lookup "message" with
        | none => Except.error (keyErr "message")
        | some msg =>
          Except.ok (sev ++ " " ++ filename ++ ":" ++ ln ++ ":" ++ col ++ ": " ++ collapse msg)

/-- The `for error in file` loop of `_parse_checkstyle`. -/
def processCheckstyleErrors (cwd : List String) (file : Element) : List Element → Except String (List String)
  | [] => Except.ok []
  | e :: rest =>
    match checkstyleErrorLine cwd file e with
    | Except.error err => Except.error err
    | Except.ok line =>
      match processCheckstyleErrors cwd file rest with
      | Except.error err => Except.error err
      | Except.ok lines => Except.ok (line :: lines)

/-- The `for file in root` loop of `_parse_checkstyle`. -/
def processCheckstyleFiles (cwd : List String) : List Element → Except String (List String)
  | [] => Except.ok []
  | f :: rest =>
    match processCheckstyleErrors cwd f f.children with
    | Except.error err => Except.error err
    | Except.ok out =>
      match processCheckstyleFiles cwd rest with
      | Except.error err => Except.error err
      | Except.ok outs => Except.ok (out ++ outs)

/-- Embedding of `_parse_checkstyle` on an already parsed XML root. -/
def parse_checkstyle_file (cwd : List String) (root : Element) : Except String (List String) :=
  processCheckstyleFiles cwd root.children

/-! ## The claims' view of the spec's wording, where it differs from code -/

/-- Summary the claim describes: computed from the failure's *text body*,
using the captured text when the body matches `<text>\nstack traceback:`
at the body's end, and the `message` attribute otherwise. -/
def specSummary (msgAttr body : String) : String :=
  if markerL.isSuffixOf body.data then
    String.mk (body.data.take (body.data.length - markerL.length))
  else msgAttr

/-! ## Concrete inputs used by counterexamples and witnesses -/

def c1fs : String → Bool := fun s => s == "projects/core-api/src/main/java/a.lua"

def c1tc : Element := ⟨"testcase", [("classname", "C"), ("name", "t")], none, []⟩

def c1body : String := " /a.lua:1: boom\nstack traceback:"

def c1r : Element := ⟨"failure", [("message", "attr msg")], some c1body, []⟩

def c2path : List String :=
  ["projects", "core", "build", "test-results", "test", "sub", "TEST-Foo.xml"]

def c2good : List String :=
  ["projects", "core", "build", "test-results", "test", "TEST-Foo.xml"]

def c4msg : String := " /a.lua:1: x\n\tat com.foo.Bar.baz(Bar.java:5)\n"

def c4fsA : String → Bool := fun s => s == "projects/core-api/src/main/java/a.lua"

def c4fsB : String → Bool := fun s => s == "projects/core-api/src/main/java/com/foo/Bar.java"

def c4msgX : String :=
  "java.lang.IllegalStateException: /x.lua:5:\n  /y.lua:7: oops\n\tat com.foo.Bar.baz(Bar.java:9)\n"

def c4fsX : String → Bool := fun s =>
  s == "projects/core-api/src/main/java/x.lua" ||
    s == "projects/core-api/src/main/java/com/foo/Bar.java"

def c5msg : String := "\tat java.lang.Foo.bar(Foo.java:1)\n\tat com.foo.Bar.baz(Bar.java:5)\n"

def c5fs : String → Bool := fun s => s == "projects/core/src/test/java/com/foo/Bar.java"

def c6fs : String → Bool := fun _ => false

def c6tc : Element := ⟨"testcase", [("classname", "com.X"), ("name", "t1")], none, []⟩

def c6r : Element := ⟨"failure", [("message", "boom")], some "no location here", []⟩

def c7file : Element := ⟨"file", [("name", "A.java")], none, []⟩

def c7err : Element :=
  ⟨"error", [("severity", "error"), ("line", "3"), ("message", "bad")], none, []⟩

def c8tc : Element := ⟨"testcase", [("classname", "C"), ("name", "t")], none, []⟩

def c8r : Element := ⟨"failure", [], some "body", []⟩

def c10tc : Element := ⟨"testcase", [("classname", "C"), ("name", "t")], none, []⟩

def c10r : Element := ⟨"failure", [("message", "m")], none, []⟩

/-! ## Helper lemmas -/

/-- The inner source-root loop is the first hit over the mapped combination
list. -/
lemma findSrc_eq (fs : String → Bool) (proj p : String) :
    ∀ srcs : List String,
      findSrc fs proj p srcs = (srcs.map (fun src => proj ++ "/" ++ src ++ "/" ++ p)).find? fs
  | [] => rfl
  | src :: rest => by
    simp only [findSrc, List.map_cons, List.find?]
    cases h : fs (proj ++ "/" ++ src ++ "/" ++ p) <;>
      simp [h, findSrc_eq fs proj p rest]

/-- First hit over an appended probe list. -/
lemma findq_append (fs : String → Bool) :
    ∀ l₁ l₂ : List String,
      (l₁ ++ l₂).find? fs =
        match l₁.find? fs with
        | some x => some x
        | none => l₂.find? fs
  | [], _ => rfl
  | a :: l₁, l₂ => by
    simp only [List.cons_append, List.find?]
    cases h : fs a <;> simp [h, findq_append fs l₁ l₂]

/-- The outer project loop is the first hit over the flattened combination
list. -/
lemma findProj_eq (fs : String → Bool) (p : String) :
    ∀ projs : List String, findProj fs p projs = (combosAux p projs).find? fs
  | [] => rfl
  | proj :: rest => by
    simp only [findProj, combosAux, findq_append, findSrc_eq, combosSrc]
    cases h : (SOURCE_LOCATIONS.map (fun src => proj ++ "/" ++ src ++ "/" ++ p)).find? fs <;>
      simp [h, findProj_eq fs p rest]

/-- Dropping non-`failure` children does not change the result of the
result loop. -/
lemma processResults_filter (fs : String → Bool) (tc : Element) :
    ∀ rs : List Element,
      processResults fs tc (rs.filter (fun e => e.tag == "failure")) = processResults fs tc rs
  | [] => rfl
  | r :: rest => by
    cases h : r.tag == "failure" <;>
      simp [List.filter_cons, h, processResults, processResults_filter fs tc rest]

/-- Dropping non-`testcase` children does not change the result of the
testcase loop. -/
lemma processTestcases_filter (fs : String → Bool) :
    ∀ tcs : List Element,
      processTestcases fs (tcs.filter (fun e => e.tag == "testcase")) = processTestcases fs tcs
  | [] => rfl
  | tc :: rest => by
    cases h : tc.tag == "testcase" <;>
      simp [List.filter_cons, h, processTestcases, processTestcases_filter fs rest]

/-- The Java-frame loop returns the first frame whose converted path
resolves. -/
lemma firstResolvableFrame_eq (fs : String → Bool) :
    ∀ l : List (List Char × List Char),
      firstResolvableFrame fs l =
        l.findSome? (fun g =>
          (find_file fs (String.mk (g.1.map dotToSlash) ++ ".java")).map
            (fun f => (f, String.mk g.2)))
  | [] => rfl
  | g :: rest => by
    simp only [firstResolvableFrame, List.findSome?]
    cases h : find_file fs (String.mk (g.1.map dotToSlash) ++ ".java") <;>
      simp [h, firstResolvableFrame_eq fs rest]

/-- When no marker occurs, `ERROR_MESSAGE.match` fails. -/
lemma errMatchAux_eq_none :
    ∀ s : List Char, containsSub markerL s = false → errMatchAux s = none
  | [], _ => rfl
  | c :: rest, h => by
    rw [containsSub, Bool.or_eq_false_iff] at h
    rw [errMatchAux, errMatchAux_eq_none rest h.2]
    simp [h.1]

/-- When the marker occurs, `ERROR_MESSAGE.match` succeeds. -/
lemma errMatchAux_isSome :
    ∀ s : List Char, containsSub markerL s = true → ∃ g, errMatchAux s = some g
  | [], h => by simp [containsSub, List.isPrefixOf, markerL] at h
  | c :: rest, h => by
    rw [errMatchAux]
    cases hr : errMatchAux rest with
    | some g => exact ⟨c :: g, rfl⟩
    | none =>
      rw [containsSub, Bool.or_eq_true] at h
      rcases h with hp | hc
      · exact ⟨[], by simp [hp]⟩
      · rcases errMatchAux_isSome rest hc with ⟨g, hg⟩
        rw [hg] at hr
        cases hr

/-- Substring occurrence is preserved by extending the subject on the
left. -/
lemma containsSub_append (pat : List Char) :
    ∀ xs t : List Char, containsSub pat t = true → containsSub pat (xs ++ t) = true
  | [], _, h => h
  | x :: xs, t, h => by
    rw [List.cons_append, containsSub, containsSub_append pat xs t h, Bool.or_true]

/-- The capture of `ERROR_MESSAGE.match` is the text before the last
marker occurrence: the remainder holds no further marker. -/
lemma errMatchAux_decomp :
    ∀ s g : List Char, errMatchAux s = some g →
      ∃ rest, s = g ++ markerL ++ rest ∧ containsSub markerL rest = false
  | [], g, h => by cases h
  | c :: rest, g, h => by
    rw [errMatchAux] at h
    cases hr : errMatchAux rest with
    | some g' =>
      rw [hr] at h
      injection h with h'
      rcases errMatchAux_decomp rest g' hr with ⟨r', hr', hc⟩
      exact ⟨r', by rw [← h', hr']; rfl, hc⟩
    | none =>
      rw [hr] at h
      by_cases hp : markerL.isPrefixOf (c :: rest)
      · rw [if_pos hp] at h
        injection h with h'
        rcases List.isPrefixOf_iff_prefix.mp hp with ⟨t, ht⟩
        refine ⟨t, by rw [← h', ← ht]; rfl, ?_⟩
        cases hct : containsSub markerL t with
        | false => rfl
        | true =>
          have hmk : markerL = '\n' :: "stack traceback:".data := rfl
          rw [hmk, List.cons_append] at ht
          have hrest : rest = "stack traceback:".data ++ t := (List.cons.injEq _ _ _ _ ▸ ht).2.symm
          have := containsSub_append markerL ("stack traceback:".data) t hct
          rw [← hrest] at this
          rcases errMatchAux_isSome rest this with ⟨g', hg'⟩
          rw [hg'] at hr
          cases hr
      · rw [if_neg hp] at h
        cases h

/-- Output of `_parse_junit_file` for one failure when every attribute and
the body are present. -/
lemma processFailure_eq (fs : String → Bool) (tc r : Element) (cn nm m t : String)
    (h1 : tc.attrib.lookup "classname" = some cn) (h2 : tc.attrib.lookup "name" = some nm)
    (h3 : r.text = some t) (h4 : r.attrib.lookup "message" = some m) :
    processFailure fs tc r = Except.ok
      [(match find_location fs t with
        | some fl =>
          "## " ++ fl.1 ++ ":" ++ fl.2 ++ ": " ++ (cn ++ "." ++ nm) ++ " failed: " ++
            collapse (errorSummary m)
        | none => "::error::" ++ (cn ++ "." ++ nm) ++ " failed"),
       "::group::Full error message", t, "::endgroup"] := by
  simp only [processFailure, h1, h2, h3, h4]

/-- Every error element of a Checkstyle file yields exactly one line. -/
lemma processCheckstyleErrors_length (cwd : List String) (file : Element) :
    ∀ (es : List Element) (ls : List String),
      processCheckstyleErrors cwd file es = Except.ok ls → ls.length = es.length
  | [], ls, h => by
    rw [processCheckstyleErrors] at h
    injection h with h'
    rw [← h']
    rfl
  | e :: rest, ls, h => by
    rw [processCheckstyleErrors] at h
    cases h1 : checkstyleErrorLine cwd file e with
    | error err => rw [h1] at h; cases h
    | ok line =>
      rw [h1] at h
      cases h2 : processCheckstyleErrors cwd file rest with
      | error err => rw [h2] at h; cases h
      | ok lines =>
        rw [h2] at h
        injection h with h'
        rw [← h']
        simp [processCheckstyleErrors_length cwd file rest lines h2]

/-- Membership in one project's glob result. -/
lemma mem_globTestXml (fs : List (List String)) (dir p : List String) :
    p ∈ globTestXml fs dir ↔ p ∈ fs ∧ ((p.dropLast == dir) && lastTestXml p) = true := by
  simp [globTestXml, List.mem_filter]

/-- Membership in the JUnit discovery list over a list of project roots. -/
lemma mem_junitDiscoveredAux (fs : List (List String)) (p : List String) :
    ∀ projs : List String,
      p ∈ junitDiscoveredAux fs projs ↔
        p ∈ fs ∧ ((projs.any fun proj => p.dropLast == projectDir proj) && lastTestXml p) = true
  | [] => by simp [junitDiscoveredAux]
  | proj :: rest => by
    simp only [junitDiscoveredAux, List.mem_append, mem_globTestXml,
      mem_junitDiscoveredAux fs p rest, List.any_cons, Bool.and_eq_true, Bool.or_eq_true]
    tauto

/-! ## The claims -/

/-- C1, counterexample: the code computes the summary from the `message`
attribute (`ERROR_MESSAGE.match(message)`), not from the failure's text
body.  Here the body ends with the traceback marker and captures
` /a.lua:1: boom`, which the claim says becomes the printed summary, yet
the printed headline carries the raw attribute `attr msg`. -/
theorem claim_C1_counterexample :
    processFailure c1fs c1tc c1r = Except.ok
      ["## projects/core-api/src/main/java/a.lua:1: C.t failed: attr msg",
       "::group::Full error message", c1body, "::endgroup"]
    ∧ specSummary "attr msg" c1body = " /a.lua:1: boom"
    ∧ collapse (specSummary "attr msg" c1body) ≠ "attr msg" := by
  refine ⟨by rfl, by rfl, by decide⟩

/-- C1 (amended): the human summary is determined from the failure's
`message` attribute, not the text body.  If the attribute contains the
marker `\nstack traceback:`, the summary is the attribute text before the
last marker occurrence; otherwise it is the raw attribute; in the located
headline all whitespace runs of the summary are collapsed to single
spaces. -/
theorem claim_C1_amended :
    (∀ m : String, containsSub markerL m.data = false → errorSummary m = m)
    ∧ (∀ m : String, containsSub markerL m.data = true →
        ∃ g rest, m.data = g ++ markerL ++ rest ∧ containsSub markerL rest = false ∧
          errorSummary m = String.mk g)
    ∧ (∀ (fs : String → Bool) (tc r : Element) (cn nm m t f l : String),
        tc.attrib.lookup "classname" = some cn → tc.attrib.lookup "name" = some nm →
        r.text = some t → r.attrib.lookup "message" = some m →
        find_location fs t = some (f, l) →
        processFailure fs tc r = Except.ok
          ["## " ++ f ++ ":" ++ l ++ ": " ++ (cn ++ "." ++ nm) ++ " failed: " ++
             collapse (errorSummary m),
           "::group::Full error message", t, "::endgroup"]) := by
  refine ⟨?_, ?_, ?_⟩
  · intro m h
    rw [errorSummary, errMatchAux_eq_none m.data h]
  · intro m h
    rcases errMatchAux_isSome m.data h with ⟨g, hg⟩
    rcases errMatchAux_decomp m.data g hg with ⟨rest, hr, hc⟩
    exact ⟨g, rest, hr, hc, by rw [errorSummary, hg]⟩
  · intro fs tc r cn nm m t f l h1 h2 h3 h4 h5
    have h := processFailure_eq fs tc r cn nm m t h1 h2 h3 h4
    rw [h5] at h
    exact h

/-- C1 witness: concrete instances of the amended claim's three parts. -/
theorem claim_C1_witness :
    errorSummary "plain" = "plain"
    ∧ (∃ g rest, ("pre\nstack traceback:" : String).data = g ++ markerL ++ rest ∧
        containsSub markerL rest = false ∧
        errorSummary "pre\nstack traceback:" = String.mk g) :=
  ⟨claim_C1_amended.1 "plain" (by decide), claim_C1_amended.2.1 "pre\nstack traceback:" (by decide)⟩

/-- C2, counterexample: a file matching `TEST-*.xml` that sits in a
subdirectory of `projects/core/build/test-results/test` is not discovered:
the `glob("TEST-*.xml")` of `parse_junit` is not recursive. -/
theorem claim_C2_counterexample :
    c2path ∈ [c2path]
    ∧ (projectDir "projects/core").isPrefixOf c2path.dropLast = true
    ∧ lastTestXml c2path = true
    ∧ c2path ∉ junitDiscovered [c2path] := by
  decide

/-- C2 (amended): the JUnit scan discovers exactly the files matching
`TEST-*.xml` that lie directly in `<project>/build/test-results/test` for
one of the six project roots; files in subdirectories of that directory
are not discovered. -/
theorem claim_C2_amended :
    ∀ (fs : List (List String)) (p : List String),
      p ∈ junitDiscovered fs ↔ p ∈ fs ∧ junitDirect p = true := by
  intro fs p
  rw [junitDiscovered, mem_junitDiscoveredAux fs p PROJECT_LOCATIONS, junitDirect]

/-- C2 witness: a matching file directly in the build-output directory is
discovered. -/
theorem claim_C2_witness : c2good ∈ junitDiscovered [c2good] :=
  (claim_C2_amended [c2good] c2good).mpr (by decide)

/-- C3: `find_file` strips all leading separators and returns the first
combination `project/source_root/path` that exists, probing the six
project roots in declared order and the four source roots in declared
order within each; absent when no combination exists. -/
theorem claim_C3 :
    (∀ (fs : String → Bool) (path : String),
      find_file fs path =
        (combos (String.mk (path.data.dropWhile (fun c => c == '/')))).find? fs)
    ∧ PROJECT_LOCATIONS.length = 6 ∧ SOURCE_LOCATIONS.length = 4 :=
  ⟨fun fs path => findProj_eq fs (String.mk (path.data.dropWhile (fun c => c == '/')))
     PROJECT_LOCATIONS, rfl, rfl⟩

/-- C3 witness: a concrete probe; only the `projects/core` copy exists and
is returned with the leading separator stripped. -/
theorem claim_C3_witness :
    find_file (fun s => s == "projects/core/src/main/java/Foo.java") "/Foo.java" =
      some "projects/core/src/main/java/Foo.java" :=
  (claim_C3.1 (fun s => s == "projects/core/src/main/java/Foo.java") "/Foo.java").trans
    (by decide)

/-- C4, counterexample: in this message the Lua-style match `/y.lua:7` does
not resolve and a resolvable Java frame (`com.foo.Bar`) is present, yet
`find_location` does not return that frame: the Java-wrapped-Lua matcher
(`java.lang.IllegalStateException: /x.lua:5:`) resolves first. -/
theorem claim_C4_counterexample :
    luaSearch c4msgX.data = some ("/y.lua".data, "7".data)
    ∧ find_file c4fsX "/y.lua" = none
    ∧ javaFindall c4msgX.data ≠ []
    ∧ firstResolvableFrame c4fsX (javaFindall c4msgX.data) =
        some ("projects/core-api/src/main/java/com/foo/Bar.java", "9")
    ∧ find_location c4fsX c4msgX = some ("projects/core-api/src/main/java/x.lua", "5")
    ∧ find_location c4fsX c4msgX ≠
        some ("projects/core-api/src/main/java/com/foo/Bar.java", "9") := by
  decide

/-- C4 (amended): the Lua-style match wins with its matched line number
whenever its captured path resolves; when it cannot be resolved,
`find_location` falls through to the Java-wrapped-Lua matcher and, when
that matcher also yields no resolved location, a resolvable Java frame is
used instead — never a partial, unresolved Lua result. -/
theorem claim_C4_amended :
    (∀ (fs : String → Bool) (msg : String) (p l : List Char) (f : String),
      luaSearch msg.data = some (p, l) → javaFindall msg.data ≠ [] →
      find_file fs (String.mk p) = some f →
      find_location fs msg = some (f, String.mk l))
    ∧ (∀ (fs : String → Bool) (msg : String) (p l : List Char) (r : String × String),
      luaSearch msg.data = some (p, l) → find_file fs (String.mk p) = none →
      resolveCapture fs (javaLuaSearch msg.data) = none →
      firstResolvableFrame fs (javaFindall msg.data) = some r →
      find_location fs msg = some r) := by
  constructor
  · intro fs msg p l f h1 _ h3
    rw [find_location, h1]
    simp [resolveCapture, h3]
  · intro fs msg p l r h1 h2 h3 h4
    rw [find_location, h1,
      show resolveCapture fs (some (p, l)) = none from by simp [resolveCapture, h2], h3, h4]

/-- C4 witness: the same message under two filesystems; with `a.lua`
present the Lua match wins, with only `Bar.java` present the Java frame is
used. -/
theorem claim_C4_witness :
    find_location c4fsA c4msg = some ("projects/core-api/src/main/java/a.lua", "1")
    ∧ find_location c4fsB c4msg =
        some ("projects/core-api/src/main/java/com/foo/Bar.java", "5") :=
  ⟨(claim_C4_amended.1 c4fsA c4msg "/a.lua".data "1".data
      "projects/core-api/src/main/java/a.lua" (by decide) (by decide) (by decide)).trans
     (by decide),
   claim_C4_amended.2 c4fsB c4msg "/a.lua".data "1".data
     ("projects/core-api/src/main/java/com/foo/Bar.java", "5")
     (by decide) (by decide) (by decide) (by decide)⟩

/-- C5: with no resolvable Lua-style and no resolvable Java-wrapped-Lua
match, `find_location` converts each Java frame's qualified class name
(dots to separators, `.java` appended), tries resolution in textual frame
order, skips unresolvable frames, and returns the first resolvable one;
absent when none resolves. -/
theorem claim_C5 :
    ∀ (fs : String → Bool) (msg : String),
      resolveCapture fs (luaSearch msg.data) = none →
      resolveCapture fs (javaLuaSearch msg.data) = none →
      find_location fs msg =
        (javaFindall msg.data).findSome? (fun g =>
          (find_file fs (String.mk (g.1.map dotToSlash) ++ ".java")).map
            (fun f => (f, String.mk g.2))) := by
  intro fs msg h1 h2
  rw [find_location, h1, h2, firstResolvableFrame_eq]

/-- C5 witness: two frames, the first (`java.lang.Foo`) unresolvable, the
second (`com.foo.Bar`) resolvable and returned. -/
theorem claim_C5_witness :
    find_location c5fs c5msg = some ("projects/core/src/test/java/com/foo/Bar.java", "5") :=
  (claim_C5 c5fs c5msg (by decide) (by decide)).trans (by decide)

/-- C6: for every failure record (all attributes and the body present) the
scan prints exactly one headline — the `## file:line:` form when a
location resolved, the `::error::` directive otherwise — followed in both
cases by the collapsible group: start-group directive, the raw body, and
the end-group directive. -/
theorem claim_C6 :
    ∀ (fs : String → Bool) (tc r : Element) (cn nm m t : String),
      tc.attrib.lookup "classname" = some cn → tc.attrib.lookup "name" = some nm →
      r.text = some t → r.attrib.lookup "message" = some m →
      processFailure fs tc r = Except.ok
        [(match find_location fs t with
          | some fl =>
            "## " ++ fl.1 ++ ":" ++ fl.2 ++ ": " ++ (cn ++ "." ++ nm) ++ " failed: " ++
              collapse (errorSummary m)
          | none => "::error::" ++ (cn ++ "." ++ nm) ++ " failed"),
         "::group::Full error message", t, "::endgroup"] :=
  fun fs tc r cn nm m t h1 h2 h3 h4 => processFailure_eq fs tc r cn nm m t h1 h2 h3 h4

/-- C6 witness: an unlocatable failure prints the `::error::` headline and
still prints the full group. -/
theorem claim_C6_witness :
    processFailure c6fs c6tc c6r = Except.ok
      ["::error::com.X.t1 failed", "::group::Full error message", "no location here",
       "::endgroup"] :=
  (claim_C6 c6fs c6tc c6r "com.X" "t1" "boom" "no location here"
    (by decide) (by decide) (by decide) (by decide)).trans (by rfl)

/-- C7: every Checkstyle `error` element yields exactly one line
`<severity> <relative-path>:<line>:<column>: <collapsed message>`, the
column being the attribute verbatim when present and the literal `1`
exactly when absent, the path being the `file` element's `name` attribute
made relative to the working directory. -/
theorem claim_C7 :
    (∀ (cwd : List String) (file e : Element) (nm sev ln msg : String),
      file.attrib.lookup "name" = some nm →
      e.attrib.lookup "severity" = some sev →
      e.attrib.lookup "line" = some ln →
      e.attrib.lookup "message" = some msg →
      checkstyleErrorLine cwd file e = Except.ok
        (sev ++ " " ++ relpath cwd nm ++ ":" ++ ln ++ ":" ++
          ((e.attrib.lookup "column").getD "1") ++ ": " ++ collapse msg))
    ∧ (∀ (cwd : List String) (file : Element) (es : List Element) (ls : List String),
      processCheckstyleErrors cwd file es = Except.ok ls → ls.length = es.length) := by
  constructor
  · intro cwd file e nm sev ln msg h1 h2 h3 h4
    simp only [checkstyleErrorLine, h1, h2, h3, h4]
  · exact fun cwd file es ls h => processCheckstyleErrors_length cwd file es ls h

/-- C7 witness: the spec's own end-to-end example, with an absent `column`
attribute printed as `1`. -/
theorem claim_C7_witness :
    checkstyleErrorLine [] c7file c7err = Except.ok "error A.java:3:1: bad"
    ∧ ["error A.java:3:1: bad"].length = [c7err].length :=
  ⟨(claim_C7.1 [] c7file c7err "A.java" "error" "3" "bad"
      (by decide) (by decide) (by decide) (by decide)).trans (by rfl),
   claim_C7.2 [] c7file [c7err] ["error A.java:3:1: bad"] (by rfl)⟩

/-- C8: a `failure` element without a `message` attribute makes the scan
raise an unhandled exception (whatever the other fields hold), rather than
being skipped or printed without a summary. -/
theorem claim_C8 :
    ∀ (fs : String → Bool) (tc r : Element),
      r.attrib.lookup "message" = none → ∃ e, processFailure fs tc r = Except.error e := by
  intro fs tc r h
  rw [processFailure]
  cases tc.attrib.lookup "classname" with
  | none => exact ⟨_, rfl⟩
  | some cn =>
    cases tc.attrib.lookup "name" with
    | none => exact ⟨_, rfl⟩
    | some nm =>
      cases r.text with
      | none => exact ⟨_, rfl⟩
      | some t => rw [h]; exact ⟨_, rfl⟩

/-- C8 witness: a failure element with no attributes at all aborts with an
exception. -/
theorem claim_C8_witness : ∃ e, processFailure (fun _ => false) c8tc c8r = Except.error e :=
  claim_C8 (fun _ => false) c8tc c8r (by rfl)

/-- C9: children of the XML root that are not `testcase` elements, and
children of a `testcase` that are not `failure` elements (such as `error`,
`skipped` or `system-out`), contribute no output and no error: filtering
them out leaves the scan's result unchanged. -/
theorem claim_C9 :
    ∀ (fs : String → Bool) (tcs : List Element) (tc : Element) (rs : List Element),
      processTestcases fs (tcs.filter (fun e => e.tag == "testcase")) = processTestcases fs tcs
      ∧ processResults fs tc (rs.filter (fun e => e.tag == "failure")) =
          processResults fs tc rs :=
  fun fs tcs tc rs => ⟨processTestcases_filter fs tcs, processResults_filter fs tc rs⟩

/-- C10: a `failure` element whose body text is absent raises an unhandled
exception at location extraction, so no line is printed for it. -/
theorem claim_C10 :
    ∀ (fs : String → Bool) (tc r : Element) (cn nm : String),
      tc.attrib.lookup "classname" = some cn → tc.attrib.lookup "name" = some nm →
      r.text = none → processFailure fs tc r = Except.error typeErr := by
  intro fs tc r cn nm h1 h2 h3
  simp only [processFailure, h1, h2, h3]

/-- C10 witness: a self-closing failure element with a `message` attribute
still aborts the scan. -/
theorem claim_C10_witness :
    processFailure (fun _ => false) c10tc c10r = Except.error typeErr :=
  claim_C10 (fun _ => false) c10tc c10r "C" "t" (by rfl) (by rfl) rfl

end ParseReports
